import Mathlib

/-!
Verification of the antigravity-Bridge visual automation core.

The definitions below are a shallow embedding of the Go source:
* the template matcher (`findImageInImageFast`, `fastMatchRaw`, `bytesSimilar`,
  `colorDiff`, `slowMatchAt` and the slow fallback of `findImageInImage`),
* the monitor loop of `MonitorProcess`,
* the workflow drivers `FullWorkflow`, `FullWorkflowImage`, `FullWorkflowMediaGroup`
  and `FindAndClick`,
* the message aggregation and batch drain of `handleMessage` in `main.go`.

Machine integers are modelled as `Int`/`Nat` (Go arithmetic on the values in
question never overflows: pixel channels are at most 65535 and all offsets are
small), pixel buffers as total functions from byte offsets to byte values, and
the nested scan loops with early `return` as `List.find?` over the row-major
list of candidate positions, which is the standard equivalence for pure loops.
-/

/-- Rectangle with the fields of Go `image.Rectangle` (`Min.X`, `Min.Y`,
`Max.X`, `Max.Y`). -/
structure Rect where
  minX : Int
  minY : Int
  maxX : Int
  maxY : Int
deriving DecidableEq, Repr

/-- Go `Rectangle.Dx()`. -/
def Rect.Dx (r : Rect) : Int := r.maxX - r.minX

/-- Go `Rectangle.Dy()`. -/
def Rect.Dy (r : Rect) : Int := r.maxY - r.minY

/-- Embedding of the source helper `abs(x int64) int64`. -/
def goAbs (x : Int) : Int := if x < 0 then -x else x

/-- The fixed tolerance constant `tol = 8000` of `colorDiff` (16-bit scale). -/
def tol : Int := 8000

/-- Embedding of `colorDiff(r1, g1, b1, a1, r2, g2, b2, a2 uint32) bool`:
per-channel comparison on the 16-bit scale returned by Go `Color.RGBA()`;
alpha is ignored (the source returns `true` without looking at `a1`, `a2`). -/
def colorDiff (r1 g1 b1 a1 r2 g2 b2 a2 : Nat) : Bool :=
  if goAbs ((r1 : Int) - (r2 : Int)) > tol then false
  else if goAbs ((g1 : Int) - (g2 : Int)) > tol then false
  else if goAbs ((b1 : Int) - (b2 : Int)) > tol then false
  else true

/-- Embedding of `bytesSimilar(a, b uint8) bool`: strict 8-bit tolerance. -/
def bytesSimilar (a b : Nat) : Bool :=
  decide ((if (a : Int) - (b : Int) < 0 then -((a : Int) - (b : Int)) else (a : Int) - (b : Int)) < 30)

/-- Row-major list of the candidate positions `(x, y)` visited by the nested
scan loops `for y := minY; y < maxY; y++ { for x := minX; x < maxX; x++ }`. -/
def rowMajor (minX minY maxX maxY : Int) : List (Int × Int) :=
  (List.range (maxY - minY).toNat).flatMap fun (dy : Nat) =>
    (List.range (maxX - minX).toNat).map fun (dx : Nat) => (minX + (dx : Int), minY + (dy : Int))

/-- The full per-pixel comparison loops of `fastMatchRaw` (the part after the
center-pixel early exit): every template pixel's three colour channels must be
`bytesSimilar` to the corresponding screen bytes. -/
def fullPixelCheck (sPix : Int → Nat) (sStride sx sy sMinX sMinY : Int)
    (tPix : Int → Nat) (tStride w h : Int) : Bool :=
  (List.range h.toNat).all fun (y : Nat) =>
    let sRow := (sy + (y : Int) - sMinY) * sStride
    let tRow := (y : Int) * tStride
    (List.range w.toNat).all fun (x : Nat) =>
      let sOff := sRow + (sx + (x : Int) - sMinX) * 4
      let tOff := tRow + (x : Int) * 4
      bytesSimilar (sPix sOff) (tPix tOff) &&
      bytesSimilar (sPix (sOff + 1)) (tPix (tOff + 1)) &&
      bytesSimilar (sPix (sOff + 2)) (tPix (tOff + 2))

/-- Embedding of `fastMatchRaw`: center-pixel early exit, then the full
per-pixel comparison (`fullPixelCheck`). -/
def fastMatchRaw (sPix : Int → Nat) (sStride sx sy sMinX sMinY : Int)
    (tPix : Int → Nat) (tStride w h : Int) : Bool :=
  let cx := w / 2
  let cy := h / 2
  let sOffC := (sy + cy - sMinY) * sStride + (sx + cx - sMinX) * 4
  let tOffC := cy * tStride + cx * 4
  if !(bytesSimilar (sPix sOffC) (tPix tOffC) &&
       bytesSimilar (sPix (sOffC + 1)) (tPix (tOffC + 1)) &&
       bytesSimilar (sPix (sOffC + 2)) (tPix (tOffC + 2))) then false
  else fullPixelCheck sPix sStride sx sy sMinX sMinY tPix tStride w h

/-- Embedding of `findImageInImageFast`: size guard, then row-major scan; at
each candidate, reject on the template's first pixel (`tPix[0..2]`), then run
`fastMatchRaw`; the first hit is returned, `(-1, -1, false)` becomes `none`. -/
def findImageInImageFast (sPix : Int → Nat) (sStride : Int) (sBounds : Rect)
    (tPix : Int → Nat) (tStride : Int) (tBounds : Rect) : Option (Int × Int) :=
  let w := tBounds.Dx
  let h := tBounds.Dy
  let maxY := sBounds.maxY - h
  let maxX := sBounds.maxX - w
  if maxY < sBounds.minY ∨ maxX < sBounds.minX then none
  else
    (rowMajor sBounds.minX sBounds.minY maxX maxY).find? fun p =>
      let sOff := (p.2 - sBounds.minY) * sStride + (p.1 - sBounds.minX) * 4
      (bytesSimilar (sPix sOff) (tPix 0) &&
       bytesSimilar (sPix (sOff + 1)) (tPix 1) &&
       bytesSimilar (sPix (sOff + 2)) (tPix 2)) &&
      fastMatchRaw sPix sStride p.1 p.2 sBounds.minX sBounds.minY tPix tStride w h

/-- Opaque image representation: Go `image.Image` restricted to what the slow
path uses, namely `Bounds()` and `At(x, y).RGBA()` (16-bit channels). -/
structure OpaqueImage where
  bounds : Rect
  At : Int → Int → Nat × Nat × Nat × Nat

/-- Embedding of `slowMatchAt(screen, template image.Image, sx, sy int) bool`. -/
def slowMatchAt (screen template : OpaqueImage) (sx sy : Int) : Bool :=
  let tBounds := template.bounds
  let w := tBounds.Dx
  let h := tBounds.Dy
  (List.range h.toNat).all fun (y : Nat) =>
    (List.range w.toNat).all fun (x : Nat) =>
      let c1 := screen.At (sx + (x : Int)) (sy + (y : Int))
      let c2 := template.At (tBounds.minX + (x : Int)) (tBounds.minY + (y : Int))
      colorDiff c1.1 c1.2.1 c1.2.2.1 c1.2.2.2 c2.1 c2.2.1 c2.2.2.1 c2.2.2.2

/-- Embedding of the slow fallback of `findImageInImage` (taken when the
images expose no packed buffer): reject on the template's first pixel via
`colorDiff`, then `slowMatchAt`; same strict scan bounds as the fast path. -/
def findImageInImageSlow (screen template : OpaqueImage) : Option (Int × Int) :=
  let bounds := screen.bounds
  let tmpBounds := template.bounds
  let c0 := template.At tmpBounds.minX tmpBounds.minY
  (rowMajor bounds.minX bounds.minY (bounds.maxX - tmpBounds.Dx) (bounds.maxY - tmpBounds.Dy)).find?
    fun p =>
      let c := screen.At p.1 p.2
      colorDiff c.1 c.2.1 c.2.2.1 c.2.2.2 c0.1 c0.2.1 c0.2.2.1 c0.2.2.2 &&
      slowMatchAt screen template p.1 p.2

/-- View of a packed `*image.RGBA` as an opaque image: Go
`(*image.RGBA).At(x, y).RGBA()` returns each stored byte scaled by `0x101 = 257`,
reading the byte at offset `(y-Min.Y)*Stride + (x-Min.X)*4 + channel`. -/
def rgbaToOpaque (pix : Int → Nat) (stride : Int) (bounds : Rect) : OpaqueImage where
  bounds := bounds
  At := fun x y =>
    let off := (y - bounds.minY) * stride + (x - bounds.minX) * 4
    (257 * pix off, 257 * pix (off + 1), 257 * pix (off + 2), 257 * pix (off + 3))

/-! ## Monitor loop (`MonitorProcess`, phase 2) and workflow events

The monitor loop is driven by a 1-second ticker; we model one iteration of the
`select` body as `monitorTick`, consuming the tick's observation: the tick time
`t` (in seconds, the first monitoring tick at time 0), whether the busy
("Replying") template was found on the fresh screenshot, and the location of
the accept-button template if found.  `time.Time{}` (the zero value of
`lastThinkingTime`) is modelled as `none`, for which `time.Since` is always at
least the pulse interval.  The independent 300-second safety-timeout `select`
branch and capture-error `continue` ticks are outside the claims proved here
and are not part of this tick model. -/

/-- Externally visible effects of a workflow run or a monitor tick. -/
inductive WfEvent where
  | log (msg : String)
  | status (msg : String)
  | key (k : String)
  | click (x y : Int)
  | setClipText (ok : Bool)
  | setClipImage (path : String) (ok : Bool)
deriving DecidableEq, Repr

/-- The constant `maxNotFound = 5` of `MonitorProcess`. -/
def maxNotFound : Nat := 5

/-- Mutable state of the monitor loop: the `notFoundCount` streak counter and
`lastThinkingTime` (`none` = the zero `time.Time{}` it starts from). -/
structure MonitorState where
  notFoundCount : Nat
  lastThinking : Option Nat
deriving DecidableEq, Repr

/-- Result of one loop iteration: `stop` models the `return` exits, `cont`
carries the events emitted on the tick and the updated state. -/
inductive TickOut where
  | stop : TickOut
  | cont (events : List WfEvent) (s : MonitorState) : TickOut
deriving DecidableEq, Repr

/-- One iteration of the `MonitorProcess` phase-2 loop body: if the busy
indicator is not found the streak is incremented and the loop returns once it
reaches `maxNotFound`; if found, the streak resets to zero, a "Thinking..."
status is emitted when at least 5 seconds have passed since the last one (or
always on the very first one), and a found accept button is clicked at its
exact match coordinates. -/
def monitorTick (s : MonitorState) (t : Nat) (replyingFound : Bool)
    (accept : Option (Int × Int)) : TickOut :=
  if replyingFound = false then
    if maxNotFound ≤ s.notFoundCount + 1 then TickOut.stop
    else TickOut.cont [] { s with notFoundCount := s.notFoundCount + 1 }
  else
    let s1 : MonitorState := { s with notFoundCount := 0 }
    let pulse : Bool :=
      match s1.lastThinking with
      | none => true
      | some last => decide (5 ≤ t - last)
    let s2 : MonitorState := if pulse then { s1 with lastThinking := some t } else s1
    let pulseEvents : List WfEvent := if pulse then [WfEvent.status "Thinking..."] else []
    let acceptEvents : List WfEvent :=
      match accept with
      | some (x, y) => [WfEvent.click x y]
      | none => []
    TickOut.cont (pulseEvents ++ acceptEvents) s2

/-- Run of the monitor loop over a finite list of tick observations.  Returns
the time-stamped events, `some k` when the loop returned after consuming `k`
ticks (`none` if the observations ran out first), and the final state. -/
def monitorRun : MonitorState → List (Nat × Bool × Option (Int × Int)) →
    List (Nat × WfEvent) × Option Nat × MonitorState
  | s, [] => ([], none, s)
  | s, (t, f, a) :: rest =>
    match monitorTick s t f a with
    | TickOut.stop => ([], some 1, s)
    | TickOut.cont evs s1 =>
      let r := monitorRun s1 rest
      (evs.map (fun e => (t, e)) ++ r.1, r.2.1.map (· + 1), r.2.2)

/-- Times at which a status callback was emitted during a monitor run. -/
def pulseTimes (out : List (Nat × WfEvent)) : List Nat :=
  out.filterMap fun p =>
    match p.2 with
    | WfEvent.status _ => some p.1
    | _ => none

/-- Click coordinates among a list of events. -/
def clickTargets (evs : List WfEvent) : List (Int × Int) :=
  evs.filterMap fun e =>
    match e with
    | WfEvent.click x y => some (x, y)
    | _ => none

/-- Status-callback texts among a list of events. -/
def statusesOf (evs : List WfEvent) : List String :=
  evs.filterMap fun e =>
    match e with
    | WfEvent.status m => some m
    | _ => none

/-- Injected key presses among a list of events. -/
def keysOf (evs : List WfEvent) : List String :=
  evs.filterMap fun e =>
    match e with
    | WfEvent.key k => some k
    | _ => none

/-! ## Workflow drivers

Each driver is modelled as a pure function from the outcomes of its external
calls (clipboard sets, screenshot, image loads, template location) to the list
of events it emits, mirroring the source's control flow.  Error detail strings
from Go `error` values are elided. -/

/-- Embedding of `FindAndClick`: screenshot, load both images, locate the
template; on success inject a mouse move and click at the match position
offset by `(+10, +10)`.  Returns the success flag and the emitted events. -/
def FindAndClick (scrotOk loadScreenOk loadTmplOk : Bool)
    (located : Option (Int × Int)) : Bool × List WfEvent :=
  if scrotOk = false then (false, [])
  else if loadScreenOk = false then (false, [])
  else if loadTmplOk = false then (false, [])
  else
    match located with
    | some (x, y) => (true, [WfEvent.click (x + 10) (y + 10)])
    | none => (false, [])

/-- Embedding of `PasteAndSubmit`: Ctrl+V then Enter. -/
def PasteAndSubmit : List WfEvent := [WfEvent.key "ctrl+v", WfEvent.key "Return"]

/-- Embedding of `FullWorkflow` (text-only run).  On clipboard failure it logs
and returns at once — before locating the input box, pasting, or submitting —
without calling `sendStatus`. -/
def FullWorkflow (text : String) (clipOk : Bool) (fac : Bool × List WfEvent)
    (monitorEvents : List WfEvent) : List WfEvent :=
  WfEvent.setClipText clipOk ::
  (if clipOk = false then [WfEvent.log "Error setting clipboard"]
   else
     fac.2 ++
     (if fac.1 then PasteAndSubmit ++ monitorEvents
      else [WfEvent.log "Could not find input_box.png",
            WfEvent.status "Error [v2]: input_box.png not found."]))

/-- Embedding of `FullWorkflowImage` (single-image run).  On clipboard failure
it logs, reports via `sendStatus`, and returns before any paste or submit. -/
def FullWorkflowImage (imagePath : String) (clipOk : Bool)
    (fac : Bool × List WfEvent) (monitorEvents : List WfEvent) : List WfEvent :=
  WfEvent.setClipImage imagePath clipOk ::
  (if clipOk = false then
     [WfEvent.log "Error setting clipboard image",
      WfEvent.status "Error setting clipboard image"]
   else
     fac.2 ++
     (if fac.1 then PasteAndSubmit ++ monitorEvents
      else [WfEvent.log "Could not find input_box.png",
            WfEvent.status "Error [v2]: input_box.png (img flow) not found."]))

/-- The indexed image-staging loop of `FullWorkflowMediaGroup`: for the `i`-th
image (0-based; messages use `i+1`), set the clipboard; on failure log, report
via `sendStatus`, and `continue` (skipping that image's paste); on success
paste with Ctrl+V. -/
def mediaGroupImagesStage (imgClipOk : String → Bool) : Nat → List String → List WfEvent
  | _, [] => []
  | i, p :: rest =>
    (WfEvent.setClipImage p (imgClipOk p) ::
      (if imgClipOk p = false then
         [WfEvent.log "Error setting clipboard image",
          WfEvent.status ("Error setting clipboard image " ++ toString (i + 1))]
       else [WfEvent.key "ctrl+v"])) ++
    mediaGroupImagesStage imgClipOk (i + 1) rest

/-- Embedding of `FullWorkflowMediaGroup`: locate-and-click the input box
first (abort with a status on failure), stage each image in turn, stage the
text caption (clipboard failure logs, reports, and skips that paste), then a
single Enter submits, followed by the monitor loop. -/
def FullWorkflowMediaGroup (imagePaths : List String) (text : String)
    (imgClipOk : String → Bool) (textClipOk : Bool)
    (fac : Bool × List WfEvent) (monitorEvents : List WfEvent) : List WfEvent :=
  fac.2 ++
  (if fac.1 = false then
     [WfEvent.log "Could not find input_box.png",
      WfEvent.status "Error [v2]: input_box.png (media group) not found."]
   else
     mediaGroupImagesStage imgClipOk 0 imagePaths ++
     (if text = "" then []
      else
        WfEvent.setClipText textClipOk ::
        (if textClipOk = false then
           [WfEvent.log "Error setting clipboard text",
            WfEvent.status "Error setting clipboard text"]
         else [WfEvent.key "ctrl+v"])) ++
     [WfEvent.key "Return"] ++ monitorEvents)

/-! ## Message aggregator (`handleMessage` in `main.go`)

Inbound Telegram messages are modelled by the fields the drain reads; the
per-conversation debounce (a 2-second `time.AfterFunc` timer restarted on
every arrival) is modelled as a fold over the time-ordered arrival list, and
the drain's attachment downloads by an oracle from file ID to success. -/

/-- The fields of `tb.Message` read by `handleMessage`'s buffer and drain. -/
structure TgMessage where
  ID : Nat
  Text : String
  Caption : String
  Photo : Option String
  Document : Option (String × String)
deriving DecidableEq, Repr

/-- Embedding of Go `filepath.Ext` on Linux: the suffix beginning at the final
dot of the final path element, empty if that element has no dot. -/
def extRev : List Char → List Char → String
  | [], _ => ""
  | c :: rest, acc =>
    if c = '.' then String.mk ('.' :: acc)
    else if c = '/' then ""
    else extRev rest (c :: acc)

/-- Go `filepath.Ext(name)`. -/
def fileExt (name : String) : String := extRev name.data.reverse []

/-- The text-fragment collection loop of the drain: per message, `Text` if
non-empty, else `Caption` if non-empty, else nothing. -/
def txtParts : List TgMessage → List String
  | [] => []
  | m :: rest =>
    if m.Text ≠ "" then m.Text :: txtParts rest
    else if m.Caption ≠ "" then m.Caption :: txtParts rest
    else txtParts rest

/-- The attachment extraction of the drain loop body: the file ID (empty
string when the message has no attachment; `Photo` takes precedence over
`Document`) and the local-file extension (the document's file-name extension
when non-empty, else `".png"`). -/
def msgFileID (m : TgMessage) : String × String :=
  match m.Photo with
  | some fid => (fid, ".png")
  | none =>
    match m.Document with
    | some (fid, name) => (fid, if fileExt name ≠ "" then fileExt name else ".png")
    | none => ("", ".png")

/-- Embedding of the drain's `sort.Slice(messages, …ID < ID…)`: the drained
messages re-ordered into ascending message-ID order. -/
def sortByID (msgs : List TgMessage) : List TgMessage :=
  List.insertionSort (fun a b => a.ID ≤ b.ID) msgs

/-- The drain's indexed download loop: for the `i`-th sorted message with a
non-empty file ID, download to `tg_batch_<chat>_<i><ext>`; on success collect
the path, on failure emit only a log line. -/
def collectImages (chatID : Nat) (downloadOk : String → Bool) :
    Nat → List TgMessage → List String × List WfEvent
  | _, [] => ([], [])
  | i, m :: rest =>
    let r := collectImages chatID downloadOk (i + 1) rest
    let fe := msgFileID m
    if fe.1 ≠ "" then
      if downloadOk fe.1 then
        (("tg_batch_" ++ toString chatID ++ "_" ++ toString i ++ fe.2) :: r.1, r.2)
      else (r.1, WfEvent.log "Error downloading item" :: r.2)
    else r

/-- Which workflow variant one drain dispatches, with its composed content. -/
inductive Dispatch where
  | mediaGroup (imagePaths : List String) (content : String)
  | textOnly (content : String)
deriving DecidableEq, Repr

/-- The composed content string carried by a dispatch. -/
def Dispatch.content : Dispatch → String
  | Dispatch.mediaGroup _ c => c
  | Dispatch.textOnly c => c

/-- Embedding of the drain callback body of `handleMessage`: empty drains do
nothing; otherwise sort by ID, collect text fragments and downloaded
attachment paths, compose the content block, and start exactly one workflow
run — the media-group variant when any attachment was downloaded, else the
text-only variant.  Also returns the drain's own emitted events (download
failures are logged only). -/
def processBatch (chatID : Nat) (downloadOk : String → Bool)
    (messages : List TgMessage) : Option Dispatch × List WfEvent :=
  if messages.length = 0 then (none, [])
  else
    let sorted := sortByID messages
    let ci := collectImages chatID downloadOk 0 sorted
    let imagePaths := ci.1
    let fullText := String.intercalate "\n" (txtParts sorted)
    let contentWithContext := "From Telegram [" ++ toString chatID ++ "]: " ++ fullText
    let contentWithContext :=
      if imagePaths.length > 0 then contentWithContext ++ " (Group/Attachments)"
      else contentWithContext
    if imagePaths.length > 0 then (some (Dispatch.mediaGroup imagePaths contentWithContext), ci.2)
    else (some (Dispatch.textOnly contentWithContext), ci.2)

/-- The quiescence window of the debounce timer (2 seconds). -/
def quiescenceWindow : Nat := 2

/-- State step of the per-conversation debounce, processing the remaining
arrivals given the current buffer and the pending timer's deadline: an arrival
before the deadline joins the buffer and restarts the timer; otherwise the
timer fires first, draining the buffer as one batch. -/
def debounceGo : List (Nat × TgMessage) → List TgMessage → Nat →
    List (Nat × List TgMessage)
  | [], buf, deadline => [(deadline, buf)]
  | (t, m) :: rest, buf, deadline =>
    if t < deadline then debounceGo rest (buf ++ [m]) (t + quiescenceWindow)
    else (deadline, buf) :: debounceGo rest [m] (t + quiescenceWindow)

/-- Batches produced by one conversation's buffer for a time-ordered list of
arrivals, as `(firing time, drained messages in arrival order)` pairs. -/
def debounceBatches : List (Nat × TgMessage) → List (Nat × List TgMessage)
  | [] => []
  | (t, m) :: rest => debounceGo rest [m] (t + quiescenceWindow)

/-! ## Shared lemmas about the matcher embedding -/

theorem bytesSimilar_self (a : Nat) : bytesSimilar a a = true := by
  simp [bytesSimilar]

theorem bytesSimilar_iff (a b : Nat) :
    bytesSimilar a b = true ↔ ((a : Int) - (b : Int)).natAbs < 30 := by
  simp only [bytesSimilar, decide_eq_true_eq]
  omega

theorem colorDiff_iff (r1 g1 b1 a1 r2 g2 b2 a2 : Nat) :
    colorDiff r1 g1 b1 a1 r2 g2 b2 a2 = true ↔
      ((r1 : Int) - (r2 : Int)).natAbs ≤ 8000 ∧
      ((g1 : Int) - (g2 : Int)).natAbs ≤ 8000 ∧
      ((b1 : Int) - (b2 : Int)).natAbs ≤ 8000 := by
  simp only [colorDiff, goAbs, tol]
  split_ifs <;> simp_all <;> omega

theorem rowMajor_eq_nil {a b c d : Int} (h : c ≤ a ∨ d ≤ b) :
    rowMajor a b c d = [] := by
  rcases h with h | h
  · have hx : (c - a).toNat = 0 := by omega
    simp [rowMajor, hx, List.flatMap]
  · have hy : (d - b).toNat = 0 := by omega
    simp [rowMajor, hy]

theorem mem_rowMajor {a b c d x y : Int} :
    (x, y) ∈ rowMajor a b c d ↔ a ≤ x ∧ x < c ∧ b ≤ y ∧ y < d := by
  unfold rowMajor
  constructor
  · intro hmem
    obtain ⟨dy, hdy, hmem2⟩ := List.mem_flatMap.1 hmem
    obtain ⟨dx, hdx, heq⟩ := List.mem_map.1 hmem2
    rw [List.mem_range] at hdy hdx
    rw [Prod.mk.injEq] at heq
    obtain ⟨hx, hy⟩ := heq
    omega
  · intro h
    refine List.mem_flatMap.2 ⟨(y - b).toNat, ?_, List.mem_map.2 ⟨(x - a).toNat, ?_, ?_⟩⟩
    · rw [List.mem_range]; omega
    · rw [List.mem_range]; omega
    · rw [Prod.mk.injEq]
      constructor <;> omega

theorem fullPixelCheck_spec (sPix : Int → Nat) (sStride sx sy sMinX sMinY : Int)
    (tPix : Int → Nat) (tStride w h : Int) :
    fullPixelCheck sPix sStride sx sy sMinX sMinY tPix tStride w h = true ↔
      ∀ y x : Nat, y < h.toNat → x < w.toNat →
        (bytesSimilar (sPix ((sy + (y : Int) - sMinY) * sStride + (sx + (x : Int) - sMinX) * 4))
            (tPix ((y : Int) * tStride + (x : Int) * 4)) = true ∧
         bytesSimilar (sPix ((sy + (y : Int) - sMinY) * sStride + (sx + (x : Int) - sMinX) * 4 + 1))
            (tPix ((y : Int) * tStride + (x : Int) * 4 + 1)) = true ∧
         bytesSimilar (sPix ((sy + (y : Int) - sMinY) * sStride + (sx + (x : Int) - sMinX) * 4 + 2))
            (tPix ((y : Int) * tStride + (x : Int) * 4 + 2)) = true) := by
  simp only [fullPixelCheck, List.all_eq_true, List.mem_range, Bool.and_eq_true]
  constructor
  · intro hfull y x hy hx
    have h1 := (hfull y hy) x hx
    exact ⟨h1.1.1, h1.1.2, h1.2⟩
  · intro hpt y hy x hx
    have h1 := hpt y x hy hx
    exact ⟨⟨h1.1, h1.2.1⟩, h1.2.2⟩

theorem fastPred_eq_fullPixelCheck (sPix : Int → Nat) (sStride : Int)
    (tPix : Int → Nat) (tStride : Int) (sMinX sMinY sx sy w h : Int)
    (hw : 1 ≤ w) (hh : 1 ≤ h) :
    ((bytesSimilar (sPix ((sy - sMinY) * sStride + (sx - sMinX) * 4)) (tPix 0) &&
      bytesSimilar (sPix ((sy - sMinY) * sStride + (sx - sMinX) * 4 + 1)) (tPix 1) &&
      bytesSimilar (sPix ((sy - sMinY) * sStride + (sx - sMinX) * 4 + 2)) (tPix 2)) &&
     fastMatchRaw sPix sStride sx sy sMinX sMinY tPix tStride w h) =
      fullPixelCheck sPix sStride sx sy sMinX sMinY tPix tStride w h := by
  cases hfull : fullPixelCheck sPix sStride sx sy sMinX sMinY tPix tStride w h with
  | false =>
    have hraw : fastMatchRaw sPix sStride sx sy sMinX sMinY tPix tStride w h = false := by
      simp only [fastMatchRaw]
      split
      · rfl
      · exact hfull
    simp [hraw]
  | true =>
    have hpt := (fullPixelCheck_spec sPix sStride sx sy sMinX sMinY tPix tStride w h).1 hfull
    have h00 := hpt 0 0 (by omega) (by omega)
    have e0 : (sy + ((0 : Nat) : Int) - sMinY) * sStride + (sx + ((0 : Nat) : Int) - sMinX) * 4 =
        (sy - sMinY) * sStride + (sx - sMinX) * 4 := by push_cast; ring
    have e0t : ((0 : Nat) : Int) * tStride + ((0 : Nat) : Int) * 4 = 0 := by push_cast; ring
    rw [e0, e0t] at h00
    simp only [zero_add] at h00
    have hcxy : 0 ≤ w / 2 ∧ w / 2 < w ∧ 0 ≤ h / 2 ∧ h / 2 < h := by omega
    have hc := hpt (h / 2).toNat (w / 2).toNat (by omega) (by omega)
    have ecy : (((h / 2).toNat : Int)) = h / 2 := by omega
    have ecx : (((w / 2).toNat : Int)) = w / 2 := by omega
    rw [ecy, ecx] at hc
    have hraw : fastMatchRaw sPix sStride sx sy sMinX sMinY tPix tStride w h = true := by
      simp only [fastMatchRaw]
      rw [hc.1, hc.2.1, hc.2.2]
      simp [hfull]
    rw [hraw, h00.1, h00.2.1, h00.2.2]
    rfl

theorem locate_fast_eq_find (sPix : Int → Nat) (sStride : Int) (sBounds : Rect)
    (tPix : Int → Nat) (tStride : Int) (tBounds : Rect)
    (hw : 1 ≤ tBounds.Dx) (hh : 1 ≤ tBounds.Dy) :
    findImageInImageFast sPix sStride sBounds tPix tStride tBounds =
      (rowMajor sBounds.minX sBounds.minY (sBounds.maxX - tBounds.Dx) (sBounds.maxY - tBounds.Dy)).find?
        (fun p => fullPixelCheck sPix sStride p.1 p.2 sBounds.minX sBounds.minY tPix tStride
          tBounds.Dx tBounds.Dy) := by
  simp only [findImageInImageFast]
  split
  · rename_i hguard
    rw [rowMajor_eq_nil (by omega)]
    rfl
  · congr 1
    funext p
    exact fastPred_eq_fullPixelCheck sPix sStride tPix tStride sBounds.minX sBounds.minY p.1 p.2
      tBounds.Dx tBounds.Dy hw hh

theorem fastMatchRaw_imp_full (sPix : Int → Nat) (sStride sx sy sMinX sMinY : Int)
    (tPix : Int → Nat) (tStride w h : Int)
    (hraw : fastMatchRaw sPix sStride sx sy sMinX sMinY tPix tStride w h = true) :
    fullPixelCheck sPix sStride sx sy sMinX sMinY tPix tStride w h = true := by
  simp only [fastMatchRaw] at hraw
  split at hraw
  · exact absurd hraw (by simp)
  · exact hraw

theorem bytesSimilar_colorDiff_scaled (r1 g1 b1 a1 r2 g2 b2 a2 : Nat)
    (hr : bytesSimilar r1 r2 = true) (hg : bytesSimilar g1 g2 = true)
    (hb : bytesSimilar b1 b2 = true) :
    colorDiff (257 * r1) (257 * g1) (257 * b1) a1 (257 * r2) (257 * g2) (257 * b2) a2 = true := by
  rw [bytesSimilar_iff] at hr hg hb
  rw [colorDiff_iff]
  push_cast
  omega

/-! ## C1 — scan order and first-match semantics of the fast path -/

/-- C1, counterexample.  The claim asserts `locate` scans every position at
which the template fully fits, including the last one (template flush with the
screen's bottom or right edge).  In a 2×1 screen whose second pixel is an
exact copy of a 1×1 template (and whose first pixel is far outside tolerance),
the copy sits at `(1, 0)`, the last fitting position; `fullPixelCheck`
confirms a perfect match there, yet `findImageInImageFast` returns `none`:
the scan loops run `for y < Max.Y - h` / `for x < Max.X - w` (strictly), so
flush positions are never visited. -/
theorem c1_counterexample :
    findImageInImageFast
        (fun i => if i = 4 then 200 else if i = 5 then 50 else if i = 6 then 50 else
                  if i = 3 ∨ i = 7 then 255 else 0) 8 ⟨0, 0, 2, 1⟩
        (fun i => if i = 0 then 200 else if i = 1 then 50 else if i = 2 then 50 else 255) 4
        ⟨0, 0, 1, 1⟩ = none ∧
    fullPixelCheck
        (fun i => if i = 4 then 200 else if i = 5 then 50 else if i = 6 then 50 else
                  if i = 3 ∨ i = 7 then 255 else 0) 8 1 0 0 0
        (fun i => if i = 0 then 200 else if i = 1 then 50 else if i = 2 then 50 else 255) 4
        1 1 = true := by
  constructor <;> decide

/-- C1 (amended): for a non-degenerate template (width and height at least 1),
`findImageInImageFast` equals the first match, in row-major order, of the
full per-pixel tolerance comparison over the candidate positions `(x, y)` with
`Min.X ≤ x < Max.X - w` and `Min.Y ≤ y < Max.Y - h` — i.e. it scans all
fitting positions except those flush with the screen's bottom or right edge,
and returns the first scanned position at which every template pixel is within
tolerance (the first-pixel and center-pixel stages reject nothing that the
full comparison accepts).  In particular an exact copy of the template at a
scanned position passes the full comparison (second conjunct), so an exact
copy at the earliest matching scanned position is returned. -/
theorem c1_scan_first_match_amended (sPix : Int → Nat) (sStride : Int) (sBounds : Rect)
    (tPix : Int → Nat) (tStride : Int) (tBounds : Rect)
    (hw : 1 ≤ tBounds.Dx) (hh : 1 ≤ tBounds.Dy) :
    findImageInImageFast sPix sStride sBounds tPix tStride tBounds =
      (rowMajor sBounds.minX sBounds.minY (sBounds.maxX - tBounds.Dx)
          (sBounds.maxY - tBounds.Dy)).find?
        (fun p => fullPixelCheck sPix sStride p.1 p.2 sBounds.minX sBounds.minY tPix tStride
          tBounds.Dx tBounds.Dy) ∧
    (∀ sx sy : Int,
      (∀ y x : Nat, y < tBounds.Dy.toNat → x < tBounds.Dx.toNat →
        (sPix ((sy + (y : Int) - sBounds.minY) * sStride + (sx + (x : Int) - sBounds.minX) * 4) =
           tPix ((y : Int) * tStride + (x : Int) * 4) ∧
         sPix ((sy + (y : Int) - sBounds.minY) * sStride + (sx + (x : Int) - sBounds.minX) * 4 + 1) =
           tPix ((y : Int) * tStride + (x : Int) * 4 + 1) ∧
         sPix ((sy + (y : Int) - sBounds.minY) * sStride + (sx + (x : Int) - sBounds.minX) * 4 + 2) =
           tPix ((y : Int) * tStride + (x : Int) * 4 + 2))) →
      fullPixelCheck sPix sStride sx sy sBounds.minX sBounds.minY tPix tStride
        tBounds.Dx tBounds.Dy = true) := by
  refine ⟨locate_fast_eq_find sPix sStride sBounds tPix tStride tBounds hw hh, ?_⟩
  intro sx sy hcopy
  refine (fullPixelCheck_spec sPix sStride sx sy sBounds.minX sBounds.minY tPix tStride
    tBounds.Dx tBounds.Dy).2 ?_
  intro y x hy hx
  obtain ⟨h1, h2, h3⟩ := hcopy y x hy hx
  rw [h1, h2, h3]
  exact ⟨bytesSimilar_self _, bytesSimilar_self _, bytesSimilar_self _⟩

/-- C1, witness: the amended theorem instantiated on a uniform 3×3 screen and
1×1 template, all hypotheses discharged concretely. -/
theorem c1_scan_first_match_amended_witness :
    ((1 : Int) ≤ Rect.Dx ⟨0, 0, 1, 1⟩) ∧ ((1 : Int) ≤ Rect.Dy ⟨0, 0, 1, 1⟩) ∧
    (findImageInImageFast (fun _ => 0) 12 ⟨0, 0, 3, 3⟩ (fun _ => 0) 4 ⟨0, 0, 1, 1⟩ =
      (rowMajor 0 0 (3 - Rect.Dx ⟨0, 0, 1, 1⟩) (3 - Rect.Dy ⟨0, 0, 1, 1⟩)).find?
        (fun p => fullPixelCheck (fun _ => 0) 12 p.1 p.2 0 0 (fun _ => 0) 4
          (Rect.Dx ⟨0, 0, 1, 1⟩) (Rect.Dy ⟨0, 0, 1, 1⟩))) :=
  ⟨by decide, by decide,
   (c1_scan_first_match_amended (fun _ => 0) 12 ⟨0, 0, 3, 3⟩ (fun _ => 0) 4 ⟨0, 0, 1, 1⟩
     (by decide) (by decide)).1⟩

/-! ## C2 — tolerance boundary rule -/

/-- C2, counterexample.  The claim says both predicates fail when a channel's
absolute difference equals the threshold.  The slow path's `colorDiff`
(threshold `tol = 8000` on the 16-bit scale) in fact succeeds at exactly the
threshold: it only rejects on a strictly greater difference. -/
theorem c2_counterexample : colorDiff 8000 0 0 0 0 0 0 0 = true := by decide

/-- C2 (amended): the two paths use different boundary rules.  The fast path's
`bytesSimilar` is strict — it succeeds iff every compared channel's byte
difference is strictly below its threshold 30 (so 29 succeeds and 30 fails) —
while the slow path's `colorDiff` is non-strict: it succeeds iff every
compared channel's 16-bit difference is at most its threshold 8000 (so 8000
still succeeds and only 8001 and above fail).  Alpha is ignored by both. -/
theorem c2_tolerance_boundary_amended :
    (∀ a b : Nat, bytesSimilar a b = true ↔ ((a : Int) - (b : Int)).natAbs < 30) ∧
    (∀ r1 g1 b1 a1 r2 g2 b2 a2 : Nat,
      colorDiff r1 g1 b1 a1 r2 g2 b2 a2 = true ↔
        ((r1 : Int) - (r2 : Int)).natAbs ≤ 8000 ∧
        ((g1 : Int) - (g2 : Int)).natAbs ≤ 8000 ∧
        ((b1 : Int) - (b2 : Int)).natAbs ≤ 8000) ∧
    bytesSimilar 29 0 = true ∧ bytesSimilar 30 0 = false ∧
    colorDiff 7999 0 0 0 0 0 0 0 = true ∧ colorDiff 8001 0 0 0 0 0 0 0 = false :=
  ⟨bytesSimilar_iff, colorDiff_iff, by decide, by decide, by decide, by decide⟩

/-! ## C3 — fast path vs slow path -/

/-- C3, counterexample.  On identical pixel content (a packed 2×2 screen and
1×1 template, and their exact opaque views via Go's `RGBA()` scaling), the two
paths disagree: the screen pixel's red byte is 130 and the template's 100, a
difference of 30, which the fast path's strict `bytesSimilar` (`< 30`) rejects
but the slow path's `colorDiff` (`30 * 257 = 7710 ≤ 8000`) accepts — the fast
path reports not-found while the slow path finds the template at `(0, 0)`.
The slow path also performs no center-pixel stage, contrary to the claim. -/
theorem c3_counterexample :
    findImageInImageFast (fun i => if i = 0 then 130 else 0) 8 ⟨0, 0, 2, 2⟩
      (fun i => if i = 0 then 100 else 0) 4 ⟨0, 0, 1, 1⟩ = none ∧
    findImageInImageSlow (rgbaToOpaque (fun i => if i = 0 then 130 else 0) 8 ⟨0, 0, 2, 2⟩)
      (rgbaToOpaque (fun i => if i = 0 then 100 else 0) 4 ⟨0, 0, 1, 1⟩) = some (0, 0) := by
  constructor <;> decide

/-- C3 (amended): the slow path scans the same candidate positions in the same
row-major order as the fast path, with a one-stage rejection (template
top-left pixel, no center-pixel stage) followed by the full per-pixel
comparison; its effective tolerance (16-bit difference at most 8000, i.e. up
to 31 byte levels) is strictly weaker than the fast path's (byte difference
strictly below 30), so on identical pixel content every fast-path hit is also
a slow-path hit: whenever the fast path finds the template, the slow path also
reports found (at the same or an earlier scan position) — but not conversely,
and the reported coordinates may differ. -/
theorem c3_fast_implies_slow_amended (sPix : Int → Nat) (sStride : Int) (sBounds : Rect)
    (tPix : Int → Nat) (tStride : Int) (tBounds : Rect) (p : Int × Int)
    (hfast : findImageInImageFast sPix sStride sBounds tPix tStride tBounds = some p) :
    (findImageInImageSlow (rgbaToOpaque sPix sStride sBounds)
      (rgbaToOpaque tPix tStride tBounds)).isSome = true := by
  simp only [findImageInImageFast] at hfast
  split at hfast
  · exact absurd hfast (by simp)
  · have hpred := List.find?_some hfast
    have hmem := List.mem_of_find?_eq_some hfast
    simp only [Bool.and_eq_true] at hpred
    obtain ⟨⟨⟨hp0, hp1⟩, hp2⟩, hraw⟩ := hpred
    have hfull := fastMatchRaw_imp_full sPix sStride p.1 p.2 sBounds.minX sBounds.minY
      tPix tStride tBounds.Dx tBounds.Dy hraw
    have hspec := (fullPixelCheck_spec sPix sStride p.1 p.2 sBounds.minX sBounds.minY
      tPix tStride tBounds.Dx tBounds.Dy).1 hfull
    simp only [findImageInImageSlow, rgbaToOpaque]
    rw [List.find?_isSome]
    refine ⟨p, hmem, ?_⟩
    simp only [Bool.and_eq_true]
    constructor
    · -- top-left rejection stage: follows from the fast path's first-pixel stage
      simp only [sub_self, zero_mul, add_zero, zero_add]
      exact bytesSimilar_colorDiff_scaled _ _ _ _ _ _ _ _ hp0 hp1 hp2
    · -- full comparison: pointwise from `fullPixelCheck`
      simp only [slowMatchAt, List.all_eq_true, List.mem_range]
      intro y hy x hx
      have hpt := hspec y x hy hx
      simp only [add_sub_cancel_left]
      exact bytesSimilar_colorDiff_scaled _ _ _ _ _ _ _ _ hpt.1 hpt.2.1 hpt.2.2

/-- C3, witness: a uniform 3×3 screen with a 1×1 template, where the fast path
finds the template at `(0, 0)`; the slow path on the corresponding opaque
views reports found as well. -/
theorem c3_fast_implies_slow_amended_witness :
    findImageInImageFast (fun _ => 0) 12 ⟨0, 0, 3, 3⟩ (fun _ => 0) 4 ⟨0, 0, 1, 1⟩ =
      some (0, 0) ∧
    (findImageInImageSlow (rgbaToOpaque (fun _ => 0) 12 ⟨0, 0, 3, 3⟩)
      (rgbaToOpaque (fun _ => 0) 4 ⟨0, 0, 1, 1⟩)).isSome = true :=
  ⟨by decide,
   c3_fast_implies_slow_amended (fun _ => 0) 12 ⟨0, 0, 3, 3⟩ (fun _ => 0) 4 ⟨0, 0, 1, 1⟩
     (0, 0) (by decide)⟩

/-! ## C8 — totality and safety of locate -/

/-- C8: `locate` never fails.  (i) On the fast path, a template strictly wider
or taller than the screen trips the size guard: the result is `none`
immediately and the candidate list is empty, so no pixel is ever read.
(ii) The same holds on the slow path, whose scan loops are empty in that case.
(iii) If no scanned candidate passes the full per-pixel comparison — in
particular if the template appears nowhere in the screen — the fast path
returns `none` (a result, not an error).  (iv) Likewise the slow path returns
`none` when no scanned candidate passes `slowMatchAt`. -/
theorem c8_locate_safety (sPix : Int → Nat) (sStride : Int) (sBounds : Rect)
    (tPix : Int → Nat) (tStride : Int) (tBounds : Rect)
    (screen template : OpaqueImage) :
    ((sBounds.Dx < tBounds.Dx ∨ sBounds.Dy < tBounds.Dy) →
      findImageInImageFast sPix sStride sBounds tPix tStride tBounds = none ∧
      rowMajor sBounds.minX sBounds.minY (sBounds.maxX - tBounds.Dx)
        (sBounds.maxY - tBounds.Dy) = []) ∧
    ((screen.bounds.Dx < template.bounds.Dx ∨ screen.bounds.Dy < template.bounds.Dy) →
      findImageInImageSlow screen template = none ∧
      rowMajor screen.bounds.minX screen.bounds.minY
        (screen.bounds.maxX - template.bounds.Dx)
        (screen.bounds.maxY - template.bounds.Dy) = []) ∧
    ((∀ p ∈ rowMajor sBounds.minX sBounds.minY (sBounds.maxX - tBounds.Dx)
        (sBounds.maxY - tBounds.Dy),
        fullPixelCheck sPix sStride p.1 p.2 sBounds.minX sBounds.minY tPix tStride
          tBounds.Dx tBounds.Dy = false) →
      findImageInImageFast sPix sStride sBounds tPix tStride tBounds = none) ∧
    ((∀ p ∈ rowMajor screen.bounds.minX screen.bounds.minY
        (screen.bounds.maxX - template.bounds.Dx)
        (screen.bounds.maxY - template.bounds.Dy),
        slowMatchAt screen template p.1 p.2 = false) →
      findImageInImageSlow screen template = none) := by
  refine ⟨?_, ?_, ?_, ?_⟩
  · intro hbig
    simp only [Rect.Dx, Rect.Dy] at hbig
    constructor
    · simp only [findImageInImageFast]
      rw [if_pos]
      simp only [Rect.Dx, Rect.Dy]
      omega
    · exact rowMajor_eq_nil (by simp only [Rect.Dx, Rect.Dy]; omega)
  · intro hbig
    simp only [Rect.Dx, Rect.Dy] at hbig
    constructor
    · simp only [findImageInImageSlow]
      rw [rowMajor_eq_nil (by simp only [Rect.Dx, Rect.Dy]; omega)]
      rfl
    · exact rowMajor_eq_nil (by simp only [Rect.Dx, Rect.Dy]; omega)
  · intro hnone
    simp only [findImageInImageFast]
    split
    · rfl
    · rw [List.find?_eq_none]
      intro p hp hpred
      simp only [Bool.and_eq_true] at hpred
      have hfull := fastMatchRaw_imp_full sPix sStride p.1 p.2 sBounds.minX sBounds.minY
        tPix tStride tBounds.Dx tBounds.Dy hpred.2
      rw [hnone p hp] at hfull
      exact Bool.false_ne_true hfull
  · intro hnone
    simp only [findImageInImageSlow]
    rw [List.find?_eq_none]
    intro p hp hpred
    simp only [Bool.and_eq_true] at hpred
    have := hpred.2
    rw [hnone p hp] at this
    exact Bool.false_ne_true this

/-- C8, witness: a 2×2 template against a 1×1 screen — strictly larger along
both axes — yields `none` on both paths with an empty candidate list, and the
no-match hypotheses hold vacuously. -/
theorem c8_locate_safety_witness :
    (Rect.Dx ⟨0, 0, 1, 1⟩ < Rect.Dx ⟨0, 0, 2, 2⟩ ∨
     Rect.Dy ⟨0, 0, 1, 1⟩ < Rect.Dy ⟨0, 0, 2, 2⟩) ∧
    (∀ p ∈ rowMajor 0 0 (1 - 2) (1 - 2),
      fullPixelCheck (fun _ => 0) 4 p.1 p.2 0 0 (fun _ => 0) 8 2 2 = false) ∧
    (∀ p ∈ rowMajor 0 0 (1 - 2) (1 - 2),
      slowMatchAt ⟨⟨0, 0, 1, 1⟩, fun _ _ => (0, 0, 0, 0)⟩
        ⟨⟨0, 0, 2, 2⟩, fun _ _ => (0, 0, 0, 0)⟩ p.1 p.2 = false) ∧
    findImageInImageFast (fun _ => 0) 4 ⟨0, 0, 1, 1⟩ (fun _ => 0) 8 ⟨0, 0, 2, 2⟩ = none ∧
    rowMajor 0 0 (1 - 2) (1 - 2) = [] ∧
    findImageInImageSlow ⟨⟨0, 0, 1, 1⟩, fun _ _ => (0, 0, 0, 0)⟩
      ⟨⟨0, 0, 2, 2⟩, fun _ _ => (0, 0, 0, 0)⟩ = none :=
  ⟨by decide, by decide, by decide,
   (c8_locate_safety (fun _ => 0) 4 ⟨0, 0, 1, 1⟩ (fun _ => 0) 8 ⟨0, 0, 2, 2⟩
      ⟨⟨0, 0, 1, 1⟩, fun _ _ => (0, 0, 0, 0)⟩ ⟨⟨0, 0, 2, 2⟩, fun _ _ => (0, 0, 0, 0)⟩).2.2.1
     (by decide),
   ((c8_locate_safety (fun _ => 0) 4 ⟨0, 0, 1, 1⟩ (fun _ => 0) 8 ⟨0, 0, 2, 2⟩
      ⟨⟨0, 0, 1, 1⟩, fun _ _ => (0, 0, 0, 0)⟩ ⟨⟨0, 0, 2, 2⟩, fun _ _ => (0, 0, 0, 0)⟩).1
     (by decide)).2,
   (c8_locate_safety (fun _ => 0) 4 ⟨0, 0, 1, 1⟩ (fun _ => 0) 8 ⟨0, 0, 2, 2⟩
      ⟨⟨0, 0, 1, 1⟩, fun _ _ => (0, 0, 0, 0)⟩ ⟨⟨0, 0, 2, 2⟩, fun _ _ => (0, 0, 0, 0)⟩).2.2.2
     (by decide)⟩

/-! ## C9 — click coordinates -/

/-- C9: when the input-surface template is located at `(x, y)`, `FindAndClick`
injects the click at `(x + 10, y + 10)`; when the monitor loop finds the
accept indicator at `(x, y)` on a busy tick, it clicks exactly `(x, y)` with
no offset (and that is the only click of the tick). -/
theorem c9_click_offsets :
    (∀ x y : Int,
      FindAndClick true true true (some (x, y)) =
        (true, [WfEvent.click (x + 10) (y + 10)])) ∧
    (∀ (s : MonitorState) (t : Nat) (x y : Int),
      ∃ evs s2, monitorTick s t true (some (x, y)) = TickOut.cont evs s2 ∧
        clickTargets evs = [(x, y)]) := by
  constructor
  · intro x y
    rfl
  · intro s t x y
    cases hl : s.lastThinking with
    | none =>
      refine ⟨[WfEvent.status "Thinking...", WfEvent.click x y], ⟨0, some t⟩, ?_, rfl⟩
      simp [monitorTick, hl]
    | some last =>
      by_cases hp : 5 ≤ t - last
      · refine ⟨[WfEvent.status "Thinking...", WfEvent.click x y], ⟨0, some t⟩, ?_, rfl⟩
        simp [monitorTick, hl, hp]
      · refine ⟨[WfEvent.click x y], ⟨0, some last⟩, ?_, rfl⟩
        simp [monitorTick, hl, hp]

/-! ## C7 — clipboard failures -/

/-- C7, counterexample.  The claim says a clipboard-set failure is reported
outward via the status callback in the text-only run as well.  In fact
`FullWorkflow` on a clipboard failure only logs and returns: no status
callback is emitted (and, consistently with the claim's abort part, no key
press is injected either). -/
theorem c7_counterexample :
    statusesOf (FullWorkflow "hi" false (true, []) []) = [] ∧
    keysOf (FullWorkflow "hi" false (true, []) []) = [] := by
  constructor <;> rfl

theorem keysOf_append (a b : List WfEvent) : keysOf (a ++ b) = keysOf a ++ keysOf b :=
  List.filterMap_append a b _

theorem statusesOf_append (a b : List WfEvent) :
    statusesOf (a ++ b) = statusesOf a ++ statusesOf b :=
  List.filterMap_append a b _

theorem mediaGroupImagesStage_counts (imgClipOk : String → Bool) (i : Nat)
    (paths : List String) :
    (keysOf (mediaGroupImagesStage imgClipOk i paths)).count "ctrl+v" =
        (paths.filter fun p => imgClipOk p).length ∧
    (keysOf (mediaGroupImagesStage imgClipOk i paths)).count "Return" = 0 ∧
    (statusesOf (mediaGroupImagesStage imgClipOk i paths)).length =
        (paths.filter fun p => imgClipOk p = false).length := by
  induction paths generalizing i with
  | nil => exact ⟨rfl, rfl, rfl⟩
  | cons p rest ih =>
    obtain ⟨h1, h2, h3⟩ := ih (i + 1)
    cases h : imgClipOk p with
    | true =>
      rw [mediaGroupImagesStage, h]
      rw [show ((if (true = false) then
         [WfEvent.log "Error setting clipboard image",
          WfEvent.status ("Error setting clipboard image " ++ toString (i + 1))]
       else [WfEvent.key "ctrl+v"]) : List WfEvent) = [WfEvent.key "ctrl+v"] from rfl]
      rw [keysOf_append, statusesOf_append]
      refine ⟨?_, ?_, ?_⟩
      · rw [List.count_append, h1]
        simp [keysOf, List.filter_cons, h]
        try omega
      · rw [List.count_append, h2]
        simp [keysOf]
      · rw [List.length_append, h3]
        simp [statusesOf, List.filter_cons, h]
        try omega
    | false =>
      rw [mediaGroupImagesStage, h]
      rw [show ((if ((false : Bool) = false) then
         [WfEvent.log "Error setting clipboard image",
          WfEvent.status ("Error setting clipboard image " ++ toString (i + 1))]
       else [WfEvent.key "ctrl+v"]) : List WfEvent) =
         [WfEvent.log "Error setting clipboard image",
          WfEvent.status ("Error setting clipboard image " ++ toString (i + 1))] from rfl]
      rw [keysOf_append, statusesOf_append]
      refine ⟨?_, ?_, ?_⟩
      · rw [List.count_append, h1]
        simp [keysOf, List.filter_cons, h]
        try omega
      · rw [List.count_append, h2]
        simp [keysOf]
      · rw [List.length_append, h3]
        simp [statusesOf, List.filter_cons, h]
        try omega

/-- C7 (amended): a clipboard-set failure always aborts the calling workflow
step before its paste (and, for single-item runs, before the submit): the
text-only run stops after only the failed clipboard set and a log line — with
no status callback — while the single-image run stops with a log line and a
status callback; in the multi-attachment run each failed per-image clipboard
set skips exactly that image's paste and emits one status callback (the run
itself continues: Ctrl+V is pressed once per successful clipboard set plus
once for a successfully staged non-empty caption, one status is emitted per
failure, and the single Enter submit is still pressed once). -/
theorem c7_clipboard_failure_amended :
    (∀ (text : String) (fac : Bool × List WfEvent) (mon : List WfEvent),
      FullWorkflow text false fac mon =
        [WfEvent.setClipText false, WfEvent.log "Error setting clipboard"]) ∧
    (∀ (path : String) (fac : Bool × List WfEvent) (mon : List WfEvent),
      FullWorkflowImage path false fac mon =
        [WfEvent.setClipImage path false, WfEvent.log "Error setting clipboard image",
         WfEvent.status "Error setting clipboard image"]) ∧
    (∀ (paths : List String) (text : String) (imgClipOk : String → Bool)
       (textClipOk : Bool) (x y : Int),
      (keysOf (FullWorkflowMediaGroup paths text imgClipOk textClipOk
          (FindAndClick true true true (some (x, y))) [])).count "ctrl+v" =
          (paths.filter fun p => imgClipOk p).length +
            (if text ≠ "" ∧ textClipOk = true then 1 else 0) ∧
      (keysOf (FullWorkflowMediaGroup paths text imgClipOk textClipOk
          (FindAndClick true true true (some (x, y))) [])).count "Return" = 1 ∧
      (statusesOf (FullWorkflowMediaGroup paths text imgClipOk textClipOk
          (FindAndClick true true true (some (x, y))) [])).length =
          (paths.filter fun p => imgClipOk p = false).length +
            (if text ≠ "" ∧ textClipOk = false then 1 else 0)) := by
  refine ⟨fun _ _ _ => rfl, fun _ _ _ => rfl, ?_⟩
  intro paths text imgClipOk textClipOk x y
  obtain ⟨h1, h2, h3⟩ := mediaGroupImagesStage_counts imgClipOk 0 paths
  have hfac : FindAndClick true true true (some (x, y)) =
      (true, [WfEvent.click (x + 10) (y + 10)]) := rfl
  rw [FullWorkflowMediaGroup, hfac]
  simp only [Bool.true_eq_false, if_false]
  rw [keysOf_append, statusesOf_append, keysOf_append, statusesOf_append,
    keysOf_append, statusesOf_append, keysOf_append, statusesOf_append]
  simp only [List.count_append, List.length_append, h1, h2, h3]
  by_cases ht : text = ""
  · simp only [ht, if_pos rfl]
    refine ⟨?_, ?_, ?_⟩ <;> simp [keysOf, statusesOf]
  · by_cases hc : textClipOk = true
    · simp only [if_neg ht, hc, Bool.true_eq_false, if_false]
      refine ⟨?_, ?_, ?_⟩ <;> simp [keysOf, statusesOf, ht, hc]
    · have hc0 : textClipOk = false := by revert hc; cases textClipOk <;> simp
      simp only [if_neg ht, hc0, if_pos rfl]
      refine ⟨?_, ?_, ?_⟩ <;> simp [keysOf, statusesOf, ht, hc0]

/-! ## Monitor loop lemmas (shared by the temporal claims) -/

theorem monitorTick_found_pulse (s : MonitorState) (t last : Nat)
    (hl : s.lastThinking = some last) (hp : 5 ≤ t - last) :
    monitorTick s t true none =
      TickOut.cont [WfEvent.status "Thinking..."] ⟨0, some t⟩ := by
  simp [monitorTick, hl, hp]

theorem monitorTick_found_noPulse (s : MonitorState) (t last : Nat)
    (hl : s.lastThinking = some last) (hp : ¬ 5 ≤ t - last) :
    monitorTick s t true none = TickOut.cont [] ⟨0, some last⟩ := by
  simp [monitorTick, hl, hp]

theorem pulseTimes_shift (a m : Nat) :
    (a + 5) :: (List.range m).map (fun k => a + 5 + 5 * (k + 1)) =
      (List.range (m + 1)).map (fun k => a + 5 * (k + 1)) := by
  have h2 : ((fun k => a + 5 * (k + 1)) ∘ Nat.succ) = fun k => a + 5 + 5 * (k + 1) := by
    funext k
    simp only [Function.comp_apply]
    omega
  rw [List.range_succ_eq_map, List.map_cons, List.map_map, h2]

theorem monitorRun_allFound (n : Nat) : ∀ (a r : Nat), 1 ≤ r → r ≤ 5 →
    pulseTimes (monitorRun ⟨0, some a⟩
        ((List.range' (a + r) n).map fun t => (t, true, none))).1 =
      (List.range ((n + r - 1) / 5)).map (fun k => a + 5 * (k + 1)) ∧
    (monitorRun ⟨0, some a⟩
        ((List.range' (a + r) n).map fun t => (t, true, none))).2.1 = none ∧
    (monitorRun ⟨0, some a⟩
        ((List.range' (a + r) n).map fun t => (t, true, none))).2.2.notFoundCount = 0 := by
  induction n with
  | zero =>
    intro a r h1 h5
    refine ⟨?_, ?_, ?_⟩ <;> simp [monitorRun, pulseTimes] <;> omega
  | succ n ih =>
    intro a r h1 h5
    rw [List.range'_succ, List.map_cons]
    by_cases hr : r = 5
    · subst hr
      have htick := monitorTick_found_pulse ⟨0, some a⟩ (a + 5) a rfl (by omega)
      simp only [monitorRun, htick]
      have hstart : a + 5 + 1 = (a + 5) + 1 := rfl
      obtain ⟨ih1, ih2, ih3⟩ := ih (a + 5) 1 (by omega) (by omega)
      refine ⟨?_, ?_, ?_⟩
      · simp only [pulseTimes, List.filterMap_append, List.filterMap_cons, List.map_cons,
          List.map_nil, List.filterMap_nil, List.singleton_append, List.nil_append]
        simp only [pulseTimes] at ih1
        rw [show (n + 1 - 1) / 5 = n / 5 from by omega] at ih1
        rw [ih1]
        rw [show (n + 1 + 5 - 1) / 5 = n / 5 + 1 from by omega]
        exact pulseTimes_shift a (n / 5)
      · rw [ih2]
        rfl
      · exact ih3
    · have htick := monitorTick_found_noPulse ⟨0, some a⟩ (a + r) a rfl (by omega)
      simp only [monitorRun, htick]
      have hstart : a + r + 1 = a + (r + 1) := by omega
      rw [hstart]
      obtain ⟨ih1, ih2, ih3⟩ := ih a (r + 1) (by omega) (by omega)
      refine ⟨?_, ?_, ?_⟩
      · simp only [pulseTimes, List.filterMap_append, List.map_nil, List.filterMap_nil,
          List.nil_append]
        simp only [pulseTimes] at ih1
        rw [ih1]
        have hd : (n + 1 + r - 1) = (n + (r + 1) - 1) := by omega
        rw [hd]
      · rw [ih2]
        rfl
      · exact ih3

theorem monitorRun_allNotFound (s : MonitorState) (hn : s.notFoundCount = 0)
    (t0 m : Nat) :
    (monitorRun s ((List.range' t0 (m + 5)).map fun t => (t, false, none))).2.1 = some 5 := by
  have h5 : m + 5 = ((((m + 1) + 1) + 1) + 1) + 1 := by omega
  rw [h5, List.range'_succ, List.range'_succ, List.range'_succ, List.range'_succ,
    List.range'_succ, List.map_cons, List.map_cons, List.map_cons, List.map_cons,
    List.map_cons]
  simp [monitorRun, monitorTick, maxNotFound, hn]

theorem monitorRun_append_stop (l1 : List (Nat × Bool × Option (Int × Int))) :
    ∀ (s : MonitorState) (k : Nat) (l2 : List (Nat × Bool × Option (Int × Int))),
    (monitorRun s l1).2.1 = some k →
    monitorRun s (l1 ++ l2) = monitorRun s l1 := by
  induction l1 with
  | nil =>
    intro s k l2 h
    simp [monitorRun] at h
  | cons x l1 ih =>
    obtain ⟨t, f, a⟩ := x
    intro s k l2 h
    simp only [List.cons_append, monitorRun, List.append_eq] at h ⊢
    cases htick : monitorTick s t f a with
    | stop => simp only [htick]
    | cont evs s1 =>
      simp only [htick] at h ⊢
      obtain ⟨k1, hk1, hkk⟩ := Option.map_eq_some'.1 h
      rw [ih s1 k1 l2 hk1]

theorem monitorRun_append_cont (l1 : List (Nat × Bool × Option (Int × Int))) :
    ∀ (s : MonitorState) (l2 : List (Nat × Bool × Option (Int × Int))),
    (monitorRun s l1).2.1 = none →
    monitorRun s (l1 ++ l2) =
      ((monitorRun s l1).1 ++ (monitorRun (monitorRun s l1).2.2 l2).1,
       ((monitorRun (monitorRun s l1).2.2 l2).2.1).map (· + l1.length),
       (monitorRun (monitorRun s l1).2.2 l2).2.2) := by
  induction l1 with
  | nil =>
    intro s l2 h
    simp only [List.nil_append, monitorRun, List.length_nil]
    refine Prod.ext ?_ (Prod.ext ?_ ?_)
    · simp
    · cases ho : (monitorRun s l2).2.1 <;> simp [ho]
    · rfl
  | cons x l1 ih =>
    obtain ⟨t, f, a⟩ := x
    intro s l2 h
    simp only [List.cons_append, monitorRun, List.length_cons, List.append_eq] at h ⊢
    cases htick : monitorTick s t f a with
    | stop =>
      simp only [htick] at h
      exact absurd h (by simp)
    | cont evs s1 =>
      simp only [htick] at h ⊢
      have hnone : (monitorRun s1 l1).2.1 = none := by
        cases ho : (monitorRun s1 l1).2.1
        · rfl
        · rw [ho] at h
          simp at h
      rw [ih s1 l2 hnone]
      refine Prod.ext ?_ (Prod.ext ?_ ?_)
      · simp [List.append_assoc]
      · cases ho : (monitorRun (monitorRun s1 l1).2.2 l2).2.1 <;>
          simp [ho, Nat.add_assoc]
      · rfl


/-- C4: in any monitoring run whose ticks report the busy indicator found for
the first `N` ticks (`N ≥ 1`) and not found on each subsequent tick, the loop
returns exactly after consuming `N + maxNotFound = N + 5` ticks — that is, on
the 5th consecutive not-found tick and on no earlier tick — and every tick on
which the indicator is found continues the loop with the not-found streak
reset to zero.  (Tick-granularity model of the phase-2 loop body; the
independent 300-second safety-timeout exit is a separate documented exit and
outside this claim.) -/
theorem c4_monitor_termination (N M : Nat) (hN : 1 ≤ N) (hM : 5 ≤ M) :
    (monitorRun ⟨0, none⟩
      ((List.range (N + M)).map fun t => (t, decide (t < N), none))).2.1 = some (N + 5) ∧
    (∀ (s : MonitorState) (t : Nat) (a : Option (Int × Int)),
      ∃ evs s2, monitorTick s t true a = TickOut.cont evs s2 ∧ s2.notFoundCount = 0) := by
  constructor
  · have hsplit : List.range (N + M) = List.range' 0 N ++ List.range' N M := by
      rw [List.range_eq_range', Nat.add_comm N M, ← List.range'_append_1]
      norm_num
    rw [hsplit, List.map_append]
    have hmap1 : (List.range' 0 N).map (fun t => (t, decide (t < N), (none : Option (Int × Int)))) =
        (List.range' 0 N).map (fun t => (t, true, (none : Option (Int × Int)))) := by
      refine List.map_congr_left fun t ht => ?_
      rw [List.mem_range'_1] at ht
      simp only [Prod.mk.injEq, decide_eq_true_eq, true_and, and_true]
      omega
    have hmap2 : (List.range' N M).map (fun t => (t, decide (t < N), (none : Option (Int × Int)))) =
        (List.range' N M).map (fun t => (t, false, (none : Option (Int × Int)))) := by
      refine List.map_congr_left fun t ht => ?_
      rw [List.mem_range'_1] at ht
      simp only [Prod.mk.injEq, decide_eq_false_iff_not, true_and, and_true]
      omega
    rw [hmap1, hmap2]
    -- the found prefix terminates nowhere and leaves a zero streak
    have hN1 : N = (N - 1) + 1 := by omega
    have htick0 : monitorTick ⟨0, none⟩ 0 true none =
        TickOut.cont [WfEvent.status "Thinking..."] ⟨0, some 0⟩ := by
      simp [monitorTick]
    obtain ⟨ih1, ih2, ih3⟩ := monitorRun_allFound (N - 1) 0 1 (le_refl 1) (by omega)
    simp only [Nat.zero_add] at ih1 ih2 ih3
    have hfound : (monitorRun ⟨0, none⟩
        ((List.range' 0 N).map fun t => (t, true, (none : Option (Int × Int))))).2.1 = none ∧
        (monitorRun ⟨0, none⟩
        ((List.range' 0 N).map fun t => (t, true, (none : Option (Int × Int))))).2.2.notFoundCount
          = 0 := by
      rw [hN1, List.range'_succ, List.map_cons]
      simp only [monitorRun, htick0]
      exact ⟨by rw [ih2]; rfl, ih3⟩
    rw [monitorRun_append_cont _ _ _ hfound.1]
    have hM5 : M = (M - 5) + 5 := by omega
    rw [hM5, monitorRun_allNotFound _ hfound.2 N (M - 5)]
    simp only [List.length_map, List.length_range']
    rw [Nat.add_comm]
    rfl
  · intro s t a
    refine ⟨_, _, rfl, ?_⟩
    cases hl : s.lastThinking with
    | none => simp [hl]
    | some last => by_cases hp : 5 ≤ t - last <;> simp [hl, hp]

/-- C4, witness: one found tick followed by five not-found ticks; the loop
returns after consuming exactly `1 + 5` ticks. -/
theorem c4_monitor_termination_witness :
    (1 ≤ 1) ∧ (5 ≤ 5) ∧
    (monitorRun ⟨0, none⟩
      ((List.range (1 + 5)).map fun t => (t, decide (t < 1), none))).2.1 = some (1 + 5) :=
  ⟨le_refl 1, le_refl 5, (c4_monitor_termination 1 5 (by decide) (by decide)).1⟩

/-- C5: while the busy indicator is continuously detected over ticks at times
`0, 1, …, D` (duration `D` seconds at tick granularity, the first monitoring
tick at time 0), the number of "Thinking..." status pulses emitted is exactly
`D / 5 + 1`, consecutive pulses are at least 5 seconds apart, and the first
pulse fires on the first tick (the `lastThinkingTime` zero value makes the
first comparison succeed). -/
theorem c5_status_pulse_rate (D : Nat) :
    (pulseTimes (monitorRun ⟨0, none⟩
        ((List.range (D + 1)).map fun t => (t, true, none))).1).length = D / 5 + 1 ∧
    List.Chain' (fun a b => a + 5 ≤ b)
      (pulseTimes (monitorRun ⟨0, none⟩
        ((List.range (D + 1)).map fun t => (t, true, none))).1) ∧
    (pulseTimes (monitorRun ⟨0, none⟩
        ((List.range (D + 1)).map fun t => (t, true, none))).1).head? = some 0 := by
  have htick0 : monitorTick ⟨0, none⟩ 0 true none =
      TickOut.cont [WfEvent.status "Thinking..."] ⟨0, some 0⟩ := by
    simp [monitorTick]
  obtain ⟨ih1, ih2, ih3⟩ := monitorRun_allFound D 0 1 (le_refl 1) (by omega)
  simp only [Nat.zero_add, Nat.add_sub_cancel] at ih1 ih2 ih3
  have hchar : pulseTimes (monitorRun ⟨0, none⟩
      ((List.range (D + 1)).map fun t => (t, true, none))).1 =
      (List.range (D / 5 + 1)).map (fun k => 5 * k) := by
    rw [List.range_eq_range', List.range'_succ, List.map_cons]
    simp only [monitorRun, htick0]
    simp only [pulseTimes, List.filterMap_append, List.filterMap_cons, List.map_cons,
      List.map_nil, List.filterMap_nil, List.singleton_append, List.nil_append]
    simp only [pulseTimes] at ih1
    rw [ih1]
    have h2 : ((fun k => 5 * k) ∘ Nat.succ) = fun k => 5 * (k + 1) := by
      funext k
      simp only [Function.comp_apply]
    rw [List.range_succ_eq_map, List.map_cons, List.map_map, h2]
  refine ⟨?_, ?_, ?_⟩
  · rw [hchar]
    simp
  · rw [hchar, List.chain'_map]
    exact (List.chain'_range_succ _ (D / 5)).2 (fun m hm => by omega)
  · rw [hchar, List.range_succ_eq_map]
    simp

/-! ## C6 — debounce coalescing and batch composition -/

theorem debounceGo_single (rest : List (Nat × TgMessage)) :
    ∀ (t : Nat) (m : TgMessage) (buf : List TgMessage),
    List.Chain (fun a b => b.1 < a.1 + quiescenceWindow) (t, m) rest →
    debounceGo rest buf (t + quiescenceWindow) =
      [((rest.getLastD (t, m)).1 + quiescenceWindow, buf ++ rest.map Prod.snd)] := by
  induction rest with
  | nil =>
    intro t m buf _
    simp [debounceGo]
  | cons x rest ih =>
    obtain ⟨t1, m1⟩ := x
    intro t m buf hchain
    cases hchain with
    | cons hrel hchain1 =>
      simp only [debounceGo, if_pos hrel]
      rw [ih t1 m1 (buf ++ [m1]) hchain1]
      rw [List.getLastD_cons, List.map_cons]
      simp

/-- C6: for a burst of messages to one conversation in which every arrival
comes strictly less than the 2-second quiescence window after the previous
one, exactly one batch is produced, firing one quiescence window after the
last arrival and containing all buffered messages in arrival order; with
(Telegram-)increasing message IDs the drain's sort leaves that order intact,
and the drain dispatches exactly one run whose content block is the messages'
text/caption fragments (text preferred over caption, empty ones skipped),
newline-joined, after the chat-context prefix (with the attachment suffix
appended iff attachments were downloaded). -/
theorem c6_debounce_coalescing (t0 : Nat) (m0 : TgMessage) (rest : List (Nat × TgMessage))
    (chatID : Nat) (dl : String → Bool)
    (hgap : List.Chain (fun a b => b.1 < a.1 + quiescenceWindow) (t0, m0) rest)
    (hids : List.Chain' (fun a b : TgMessage => a.ID < b.ID) (m0 :: rest.map Prod.snd)) :
    debounceBatches ((t0, m0) :: rest) =
      [((rest.getLastD (t0, m0)).1 + quiescenceWindow, m0 :: rest.map Prod.snd)] ∧
    sortByID (m0 :: rest.map Prod.snd) = m0 :: rest.map Prod.snd ∧
    (∃ d, (processBatch chatID dl (m0 :: rest.map Prod.snd)).1 = some d ∧
      (d.content = "From Telegram [" ++ toString chatID ++ "]: " ++
          String.intercalate "\n" (txtParts (m0 :: rest.map Prod.snd)) ∨
       d.content = "From Telegram [" ++ toString chatID ++ "]: " ++
          String.intercalate "\n" (txtParts (m0 :: rest.map Prod.snd)) ++
          " (Group/Attachments)")) := by
  have hsort : sortByID (m0 :: rest.map Prod.snd) = m0 :: rest.map Prod.snd := by
    haveI : IsTrans TgMessage (fun a b => a.ID < b.ID) :=
      ⟨fun a b c h1 h2 => lt_trans h1 h2⟩
    have hpw : List.Pairwise (fun a b : TgMessage => a.ID < b.ID) (m0 :: rest.map Prod.snd) :=
      List.chain'_iff_pairwise.1 hids
    exact List.Sorted.insertionSort_eq (hpw.imp fun h => le_of_lt h)
  refine ⟨?_, hsort, ?_⟩
  · show debounceGo rest [m0] (t0 + quiescenceWindow) = _
    rw [debounceGo_single rest t0 m0 [m0] hgap]
    rfl
  · simp only [processBatch, hsort]
    rw [if_neg (by simp)]
    by_cases himg : 0 < (collectImages chatID dl 0 (m0 :: rest.map Prod.snd)).1.length
    · refine ⟨Dispatch.mediaGroup (collectImages chatID dl 0 (m0 :: rest.map Prod.snd)).1
        ("From Telegram [" ++ toString chatID ++ "]: " ++
          String.intercalate "\n" (txtParts (m0 :: rest.map Prod.snd)) ++
          " (Group/Attachments)"), ?_, Or.inr rfl⟩
      simp [himg]
    · refine ⟨Dispatch.textOnly
        ("From Telegram [" ++ toString chatID ++ "]: " ++
          String.intercalate "\n" (txtParts (m0 :: rest.map Prod.snd))), ?_, Or.inl rfl⟩
      simp [himg]

/-- C6, witness: two text messages at times 0 and 1 (gap below the 2-second
window) with ascending IDs coalesce into one batch firing at time 3. -/
theorem c6_debounce_coalescing_witness :
    List.Chain (fun a b : Nat × TgMessage => b.1 < a.1 + quiescenceWindow)
      (0, ⟨1, "a", "", none, none⟩) [(1, ⟨2, "b", "", none, none⟩)] ∧
    List.Chain' (fun a b : TgMessage => a.ID < b.ID)
      ((⟨1, "a", "", none, none⟩ : TgMessage) ::
        [((1 : Nat), (⟨2, "b", "", none, none⟩ : TgMessage))].map Prod.snd) ∧
    debounceBatches [(0, ⟨1, "a", "", none, none⟩), (1, ⟨2, "b", "", none, none⟩)] =
      [(3, [⟨1, "a", "", none, none⟩, ⟨2, "b", "", none, none⟩])] :=
  ⟨List.Chain.cons (by decide) List.Chain.nil,
   List.Chain.cons (by decide) List.Chain.nil,
   (c6_debounce_coalescing 0 ⟨1, "a", "", none, none⟩ [(1, ⟨2, "b", "", none, none⟩)]
      7 (fun _ => false) (List.Chain.cons (by decide) List.Chain.nil)
      (List.Chain.cons (by decide) List.Chain.nil)).1⟩

/-! ## C10 — attachment download failures in the drain -/

theorem collectImages_spec (chatID : Nat) (dl : String → Bool) :
    ∀ (msgs : List TgMessage) (i : Nat),
    statusesOf (collectImages chatID dl i msgs).2 = [] ∧
    ((collectImages chatID dl i msgs).1 = [] ↔
      ∀ m ∈ msgs, (msgFileID m).1 ≠ "" → dl (msgFileID m).1 = false) := by
  intro msgs
  induction msgs with
  | nil =>
    intro i
    exact ⟨rfl, by simp [collectImages]⟩
  | cons m rest ih =>
    intro i
    obtain ⟨ih1, ih2⟩ := ih (i + 1)
    by_cases hfid : (msgFileID m).1 = ""
    · simp only [collectImages]
      rw [if_neg (by simp [hfid])]
      refine ⟨ih1, ?_⟩
      rw [ih2, List.forall_mem_cons]
      simp [hfid]
    · by_cases hdl : dl (msgFileID m).1 = true
      · simp only [collectImages]
        rw [if_pos hfid, if_pos hdl]
        refine ⟨ih1, ?_⟩
        refine ⟨fun h => absurd h (by simp), fun h => ?_⟩
        exact absurd (h m (by simp) hfid) (by simp [hdl])
      · have hdl0 : dl (msgFileID m).1 = false := by
          revert hdl
          cases dl (msgFileID m).1 <;> simp
        simp only [collectImages]
        rw [if_pos hfid, if_neg (by simp [hdl0])]
        constructor
        · simpa [statusesOf] using ih1
        · rw [ih2, List.forall_mem_cons]
          simp [hdl0]

/-- C10: for every non-empty drained batch, (i) exactly one workflow run is
dispatched; (ii) the drain emits no status callback — failed attachment
downloads are logged only, the run is not aborted; (iii) if every
attachment-bearing message's download fails, the batch is dispatched via the
text-only run variant; (iv) the media-group variant is dispatched iff at least
one attachment download succeeds (failed attachments are simply omitted from
the collected path list). -/
theorem c10_download_failure_handling (chatID : Nat) (dl : String → Bool)
    (messages : List TgMessage) (hne : messages ≠ []) :
    (∃ d, (processBatch chatID dl messages).1 = some d) ∧
    statusesOf (processBatch chatID dl messages).2 = [] ∧
    ((∀ m ∈ messages, (msgFileID m).1 ≠ "" → dl (msgFileID m).1 = false) →
      ∃ c, (processBatch chatID dl messages).1 = some (Dispatch.textOnly c)) ∧
    ((∃ m ∈ messages, (msgFileID m).1 ≠ "" ∧ dl (msgFileID m).1 = true) ↔
      (∃ ps c, (processBatch chatID dl messages).1 = some (Dispatch.mediaGroup ps c))) := by
  have hperm : (sortByID messages).Perm messages :=
    List.perm_insertionSort _ messages
  obtain ⟨hst, hiff⟩ := collectImages_spec chatID dl (sortByID messages) 0
  have hlen : ¬ messages.length = 0 := by
    simpa [List.length_eq_zero] using hne
  have hiff2 : (collectImages chatID dl 0 (sortByID messages)).1 = [] ↔
      ∀ m ∈ messages, (msgFileID m).1 ≠ "" → dl (msgFileID m).1 = false := by
    rw [hiff]
    constructor
    · intro h m hm
      exact h m (hperm.mem_iff.2 hm)
    · intro h m hm
      exact h m (hperm.mem_iff.1 hm)
  refine ⟨?_, ?_, ?_, ?_⟩
  · simp only [processBatch]
    rw [if_neg hlen]
    by_cases himg : 0 < (collectImages chatID dl 0 (sortByID messages)).1.length
    · exact ⟨Dispatch.mediaGroup (collectImages chatID dl 0 (sortByID messages)).1
        ("From Telegram [" ++ toString chatID ++ "]: " ++
          String.intercalate "\n" (txtParts (sortByID messages)) ++ " (Group/Attachments)"),
        by simp [himg]⟩
    · exact ⟨Dispatch.textOnly ("From Telegram [" ++ toString chatID ++ "]: " ++
          String.intercalate "\n" (txtParts (sortByID messages))), by simp [himg]⟩
  · simp only [processBatch]
    rw [if_neg hlen]
    by_cases himg : 0 < (collectImages chatID dl 0 (sortByID messages)).1.length
    · simpa [himg] using hst
    · simpa [himg] using hst
  · intro hall
    have hempty : (collectImages chatID dl 0 (sortByID messages)).1 = [] := hiff2.2 hall
    simp only [processBatch]
    rw [if_neg hlen]
    rw [if_neg (by simp [hempty])]
    exact ⟨_, rfl⟩
  · constructor
    · intro hex
      have hnonempty : ¬ (collectImages chatID dl 0 (sortByID messages)).1 = [] := by
        rw [hiff2]
        push_neg
        obtain ⟨m, hm, hfid, hdl⟩ := hex
        exact ⟨m, hm, hfid, by simp [hdl]⟩
      simp only [processBatch]
      rw [if_neg hlen]
      rw [if_pos (by simpa [List.length_pos] using hnonempty)]
      exact ⟨_, _, rfl⟩
    · intro hex
      obtain ⟨ps, c, hps⟩ := hex
      by_contra hno
      push_neg at hno
      have hall : ∀ m ∈ messages, (msgFileID m).1 ≠ "" → dl (msgFileID m).1 = false := by
        intro m hm hfid
        have := hno m hm
        revert this
        cases dl (msgFileID m).1 <;> simp [hfid]
      have hempty : (collectImages chatID dl 0 (sortByID messages)).1 = [] := hiff2.2 hall
      simp only [processBatch] at hps
      rw [if_neg hlen] at hps
      rw [if_neg (by simp [hempty])] at hps
      simp at hps

/-- C10, witness: a single photo message whose download fails — exactly one
run is started, no status is emitted, and the dispatch is text-only. -/
theorem c10_download_failure_handling_witness :
    ((([⟨1, "t", "", some "f", none⟩] : List TgMessage)) ≠ []) ∧
    (∀ m ∈ ([⟨1, "t", "", some "f", none⟩] : List TgMessage),
      (msgFileID m).1 ≠ "" → (fun _ => false : String → Bool) (msgFileID m).1 = false) ∧
    statusesOf (processBatch 7 (fun _ => false) [⟨1, "t", "", some "f", none⟩]).2 = [] ∧
    (∃ c, (processBatch 7 (fun _ => false) [⟨1, "t", "", some "f", none⟩]).1 =
      some (Dispatch.textOnly c)) :=
  ⟨by simp, by intro m hm h; rfl,
   (c10_download_failure_handling 7 (fun _ => false) [⟨1, "t", "", some "f", none⟩]
     (by simp)).2.1,
   (c10_download_failure_handling 7 (fun _ => false) [⟨1, "t", "", some "f", none⟩]
     (by simp)).2.2.1 (by intro m hm h; rfl)⟩
